import Mathlib

/-!
Verification of `src/windows_color_picker.c` (minimal-color-picker).

The program is a single-file Win32 utility: a circular magnified loupe
follows the cursor; a left click copies the pixel color under the cursor
as `#RRGGBB` to the clipboard and exits.  This file shallowly embeds the
program's pure logic: the compositing pipeline (`draw_overlay_frame`),
the circular alpha mask (`apply_circle_alpha_mask`), the capture-size
computation (`ensure_resources`), monitor clamping (`clamp_to_monitor`),
hex formatting (`copy_color_and_quit`), the low-level input hooks, and
the event-loop shutdown behaviour of `wWinMain`.  OS collaborators (GDI
drawing primitives, cursor, clipboard) that are not part of the source
are modelled from the specification, as noted on each definition.
-/

namespace ColorPicker

/-- `static const int kRadius = 120;` — circle radius in px. -/
def kRadius : Nat := 120

/-- `static const int kDiameter = 240;` — 2*radius; side of the DIB frame. -/
def kDiameter : Nat := 240

/-- `static const int kZoom = 8;` — magnification factor. -/
def kZoom : Nat := 8

/-- `static const int kBorderWidth = 2;` — ring stroke width. -/
def kBorderWidth : Nat := 2

/-- A 32-bit BGRA pixel of the DIB section (`g_bits`); each field is the
byte value (0..255) at offsets 0..3 as the C code indexes them. -/
structure Pixel where
  b : Nat
  g : Nat
  r : Nat
  a : Nat
deriving DecidableEq, Repr

/-- An opaque screen sample as captured into `g_capBmp` (no alpha channel
on screen captures; GDI leaves the reserved byte unspecified). -/
structure RGB where
  b : Nat
  g : Nat
  r : Nat
deriving DecidableEq, Repr

/-- The `kDiameter × kDiameter` top-down 32bpp DIB buffer `g_bits`,
indexed `frame x y` with `x` the column and `y` the row. -/
def Frame : Type := Fin kDiameter → Fin kDiameter → Pixel

/-- `ensure_resources`: `int desiredCapSize = kDiameter / kZoom; if
((desiredCapSize % 2) == 0) desiredCapSize += 1;` — computed for general
`diameter` and `zoom` (C integer division on nonnegative values is
`Nat` division). -/
def desiredCapSize (diameter zoom : Nat) : Nat :=
  let d := diameter / zoom
  if d % 2 = 0 then d + 1 else d

/-- The capture-buffer side actually used by the program
(`g_capSize` after `ensure_resources` with the compiled constants). -/
def capSize : Nat := desiredCapSize kDiameter kZoom

/-- The square capture buffer `g_capBmp` of side `capSize`. -/
def Capture : Type := Fin capSize → Fin capSize → RGB


/-- Squared Euclidean distance of pixel `(x, y)` from the frame center
`(cx, cy) = (kRadius, kRadius)`, exactly as `apply_circle_alpha_mask`
computes it: `int dx = x - cx; int dy = y - cy; int d2 = dx*dx + dy*dy;`. -/
def dist2 (x y : Fin kDiameter) : Int :=
  let dx : Int := (x : Int) - (kRadius : Int)
  let dy : Int := (y : Int) - (kRadius : Int)
  dx * dx + dy * dy

/-- `apply_circle_alpha_mask`: for every pixel of the DIB, if its squared
distance from the center is at most `kRadius*kRadius` set the alpha byte
`p[3]` to 255, else zero all four bytes. -/
def apply_circle_alpha_mask (f : Frame) : Frame :=
  fun x y =>
    if dist2 x y ≤ (kRadius : Int) * (kRadius : Int) then
      { f x y with a := 255 }
    else
      ⟨0, 0, 0, 0⟩

/-- `draw_overlay_frame`: `memset(g_bits, 0, kDiameter * kDiameter * 4);`
— the reused DIB memory is fully overwritten with zero bytes. -/
def clearBuffer (_prev : Frame) : Frame := fun _ _ => ⟨0, 0, 0, 0⟩

/-- Source index of the nearest-neighbour stretch from side `capSize` to
side `kDiameter`. -/
def srcIdx (x : Fin kDiameter) : Fin capSize :=
  ⟨x.val * capSize / kDiameter, by
    have hx : x.val * capSize < capSize * kDiameter := by
      have := x.isLt
      calc x.val * capSize < kDiameter * capSize :=
            (Nat.mul_lt_mul_right (by decide : 0 < capSize)).mpr this
        _ = capSize * kDiameter := Nat.mul_comm _ _
    exact Nat.div_lt_of_lt_mul (by simpa [Nat.mul_comm] using hx)⟩

/-- Modelled from the spec: `StretchBlt(g_memDC, 0,0, kDiameter,kDiameter,
g_capDC, 0,0, capSize,capSize, SRCCOPY)` with `COLORONCOLOR` — GDI
`StretchBlt` is an OS collaborator absent from the source; the spec
allows any simple scaling filter ("the source favors simple box/nearest
scaling for speed"), so it is modelled as a nearest-neighbour stretch of
the `capSize × capSize` capture to `kDiameter × kDiameter`, written over
the destination buffer `dst`; every destination pixel receives a source
sample, so `dst` is fully overwritten.  GDI does not produce alpha
("Apply circle alpha after StretchBlt (GDI doesn't set alpha)"), so the
written alpha byte is 0. -/
def stretchOnto (_dst : Frame) (cap : Capture) : Frame :=
  fun x y =>
    let s := cap (srcIdx x) (srcIdx y)
    ⟨s.b, s.g, s.r, 0⟩

/-- Footprint of the border ring: `Ellipse(g_memDC, inset, inset,
kDiameter - inset, kDiameter - inset)` with `inset = kBorderWidth / 2 = 1`
and a solid pen of width `kBorderWidth` around the circle of radius
`kRadius - 1`; the stroke covers distances in
`[kRadius - kBorderWidth, kRadius]` from the center. -/
def ringFootprint (x y : Fin kDiameter) : Prop :=
  ((kRadius : Int) - (kBorderWidth : Int)) ^ 2 ≤ dist2 x y ∧
    dist2 x y ≤ (kRadius : Int) * (kRadius : Int)

instance (x y : Fin kDiameter) : Decidable (ringFootprint x y) := by
  unfold ringFootprint; infer_instance

/-- Modelled from the spec: GDI `Ellipse` with a white pen and the hollow
brush is an OS collaborator absent from the source; per the spec the ring
is drawn "inset by half the stroke width so the ring is not clipped by
the mask" and the drawing affects color only ("will affect RGB, alpha
already 255 in circle"): pixels on the stroke get white color channels,
their alpha byte is untouched. -/
def drawBorderRing (f : Frame) : Frame :=
  fun x y =>
    if ringFootprint x y then
      { f x y with b := 255, g := 255, r := 255 }
    else f x y

/-- Footprint of the center marker: `Rectangle(g_memDC, cx - 3, cy - 3,
cx + 3, cy + 3)` (for `m = 6`) with the hollow brush — the stroked
outline of a small square centered on `(kRadius, kRadius)`. -/
def markerFootprint (x y : Fin kDiameter) : Prop :=
  (kRadius : Int) - 3 ≤ (x : Int) ∧ (x : Int) ≤ (kRadius : Int) + 2 ∧
    (kRadius : Int) - 3 ≤ (y : Int) ∧ (y : Int) ≤ (kRadius : Int) + 2 ∧
    ((x : Int) ≤ (kRadius : Int) - 2 ∨ (kRadius : Int) + 1 ≤ (x : Int) ∨
      (y : Int) ≤ (kRadius : Int) - 2 ∨ (kRadius : Int) + 1 ≤ (y : Int))

instance (x y : Fin kDiameter) : Decidable (markerFootprint x y) := by
  unfold markerFootprint; infer_instance

/-- Modelled from the spec: GDI `Rectangle` with the same white pen and
hollow brush is an OS collaborator absent from the source; per the spec
it draws "a small filled square centered at the frame center" outline in
the border color, affecting color channels only. -/
def drawCenterMarker (f : Frame) : Frame :=
  fun x y =>
    if markerFootprint x y then
      { f x y with b := 255, g := 255, r := 255 }
    else f x y

/-- The compositing pipeline of `draw_overlay_frame`, acting on the
reused DIB memory `prev` and the freshly captured screen square `cap`:
clear the buffer (`memset`), stretch the capture into it, apply the
circular alpha mask, draw the border ring, draw the center marker. -/
def composite (prev : Frame) (cap : Capture) : Frame :=
  drawCenterMarker (drawBorderRing
    (apply_circle_alpha_mask (stretchOnto (clearBuffer prev) cap)))

/-! ### Hex formatting (`copy_color_and_quit`) -/

/-- One uppercase hexadecimal digit, as `%X` renders a value below 16. -/
def hexDigit (n : Nat) : Char :=
  if n = 0 then '0' else if n = 1 then '1' else if n = 2 then '2'
  else if n = 3 then '3' else if n = 4 then '4' else if n = 5 then '5'
  else if n = 6 then '6' else if n = 7 then '7' else if n = 8 then '8'
  else if n = 9 then '9' else if n = 10 then 'A' else if n = 11 then 'B'
  else if n = 12 then 'C' else if n = 13 then 'D' else if n = 14 then 'E'
  else 'F'

/-- `%02X` applied to a channel value in `[0, 255]`: two uppercase hex
digits, zero-padded (high nibble then low nibble). -/
def byteHex (v : Nat) : List Char :=
  [hexDigit (v / 16), hexDigit (v % 16)]

/-- `copy_color_and_quit`: `swprintf(buf, 16, L"#%02X%02X%02X", r, g, b);`
— the formatted color string for channel values `r`, `g`, `b`. -/
def formatColor (r g b : Nat) : String :=
  String.mk ('#' :: (byteHex r ++ byteHex g ++ byteHex b))

/-- Value of an uppercase hexadecimal digit (16 for non-digits). -/
def hexVal (c : Char) : Nat :=
  if c = '0' then 0 else if c = '1' then 1 else if c = '2' then 2
  else if c = '3' then 3 else if c = '4' then 4 else if c = '5' then 5
  else if c = '6' then 6 else if c = '7' then 7 else if c = '8' then 8
  else if c = '9' then 9 else if c = 'A' then 10 else if c = 'B' then 11
  else if c = 'C' then 12 else if c = 'D' then 13 else if c = 'E' then 14
  else if c = 'F' then 15 else 16

/-- The character is one of the sixteen uppercase hexadecimal digits. -/
def isUpperHexDigit (c : Char) : Prop := hexVal c ≤ 15

instance (c : Char) : Decidable (isUpperHexDigit c) := by
  unfold isUpperHexDigit; infer_instance

/-! ### Monitor clamping (`clamp_to_monitor`) -/

/-- A Win32 `RECT` (left, top, right, bottom), with `int` coordinates
modelled as unbounded integers. -/
structure Rect where
  left : Int
  top : Int
  right : Int
  bottom : Int
deriving DecidableEq, Repr

/-- `clamp_to_monitor(desiredTopLeft, width, height)` against the work
area `work` of the monitor nearest the desired point (`MonitorFromPoint`
and `GetMonitorInfo` are OS queries; the rectangle they return is taken
as a parameter).  The two clamps run in sequence exactly as in the
source: first raise `x`/`y` to the work-area minimum, then, if the
window would overhang, set them so its far edge sits on the maximum. -/
def clamp_to_monitor (desiredTopLeft : Int × Int) (width height : Int)
    (work : Rect) : Rect :=
  let x0 := desiredTopLeft.1
  let y0 := desiredTopLeft.2
  let x1 := if x0 < work.left then work.left else x0
  let y1 := if y0 < work.top then work.top else y0
  let x2 := if x1 + width > work.right then work.right - width else x1
  let y2 := if y1 + height > work.bottom then work.bottom - height else y1
  ⟨x2, y2, x2 + width, y2 + height⟩

/-! ### Input hooks and event loop -/

/-- Virtual-key codes distinguished by `LowLevelKeyboardProc`. -/
inductive Key where
  | left
  | right
  | up
  | down
  | escape
  | other (vk : Nat)
deriving DecidableEq, Repr

/-- Result of a low-level hook callback on one event: the system cursor
position after the callback (arrow keys call `SetCursorPos`), whether a
quit message was posted (`PostQuitMessage(0)`), and whether the event
was swallowed (the callback returned 1 instead of calling
`CallNextHookEx`). -/
structure HookResult where
  cursor : Int × Int
  quitPosted : Bool
  swallowed : Bool
deriving DecidableEq, Repr

/-- `LowLevelKeyboardProc` on a key-down event (`WM_KEYDOWN` or
`WM_SYSKEYDOWN`): `int step = (GetAsyncKeyState(VK_SHIFT) & 0x8000) ? 5 : 1;`
then arrows move the cursor by `step`, Escape posts quit, all five are
swallowed, and any other key falls through to `CallNextHookEx`.
`shift` is the sampled Shift state and `pos` the cursor position read by
`GetCursorPos` (`SetCursorPos` is modelled from the spec as setting the
cursor exactly to its arguments: "move the system cursor by a fixed
step"). -/
def keyboardHandleKeyDown (shift : Bool) (pos : Int × Int) (k : Key) :
    HookResult :=
  let step : Int := if shift then 5 else 1
  match k with
  | .left => ⟨(pos.1 - step, pos.2), false, true⟩
  | .right => ⟨(pos.1 + step, pos.2), false, true⟩
  | .up => ⟨(pos.1, pos.2 - step), false, true⟩
  | .down => ⟨(pos.1, pos.2 + step), false, true⟩
  | .escape => ⟨pos, true, true⟩
  | .other _ => ⟨pos, false, false⟩

/-! ### Clipboard, commit, and the event loop -/

/-- The OS facilities the program consumes, fixed for one run: the screen
pixel under any point (`GetPixel`), the success of `OpenClipboard`,
`GlobalAlloc` and `GlobalLock`, and whether a parent console could be
attached (`try_use_parent_console_stdout`). -/
structure Env where
  screen : Int × Int → RGB
  clipboardCanOpen : Bool
  clipboardAllocOk : Bool
  clipboardLockOk : Bool
  consoleAttached : Bool

/-- `clipboard_set_text_utf16(text)` as a transformer of the clipboard
content: if `OpenClipboard` fails, return at once leaving the clipboard
unchanged; otherwise `EmptyClipboard` runs, and the text is installed
only if both `GlobalAlloc` and `GlobalLock` succeed (on a lock failure
the memory is freed and the clipboard stays empty). -/
def clipboard_set_text_utf16 (env : Env) (text : String)
    (clip : Option String) : Option String :=
  if !env.clipboardCanOpen then clip
  else if env.clipboardAllocOk && env.clipboardLockOk then some text
  else none

/-- Observable state of one run: the system cursor, the clipboard
content, the lines written to the attached console, and the posted quit
code (`PostQuitMessage`), `none` while the loop is still running. -/
structure AppState where
  cursor : Int × Int
  clipboard : Option String
  console : List String
  quit : Option Int
deriving DecidableEq, Repr

/-- `copy_color_and_quit`: read the pixel under the cursor (`GetCursorPos`
+ `GetPixel`), format it as `#RRGGBB`, attempt the clipboard write, echo
to the parent console when one is attached, then unconditionally
`PostQuitMessage(0)`. -/
def copy_color_and_quit (env : Env) (s : AppState) : AppState :=
  let c := env.screen s.cursor
  let text := formatColor c.r c.g c.b
  { s with
    clipboard := clipboard_set_text_utf16 env text s.clipboard
    console := if env.consoleAttached then s.console ++ [text] else s.console
    quit := some 0 }

/-- The events dispatched by the message loop: a key-down seen by
`LowLevelKeyboardProc` (with the sampled Shift state), a left-button-down
seen by `LowLevelMouseProc`, and a `WM_TIMER` tick. -/
inductive Event where
  | keyDown (shift : Bool) (k : Key)
  | lbuttonDown
  | tick
deriving DecidableEq, Repr

/-- One iteration of the message loop.  Once a quit message is posted,
`GetMessageW` returns 0 and nothing further is dispatched.  A tick runs
`draw_overlay_frame`, which changes none of the observable state modelled
here; a key-down runs `LowLevelKeyboardProc`; a left-button-down runs
`copy_color_and_quit` via `LowLevelMouseProc`. -/
def stepEvent (env : Env) (s : AppState) (e : Event) : AppState :=
  if s.quit.isSome then s
  else
    match e with
    | .tick => s
    | .keyDown sh k =>
        let hr := keyboardHandleKeyDown sh s.cursor k
        { s with cursor := hr.cursor,
                 quit := if hr.quitPosted then some 0 else s.quit }
    | .lbuttonDown => copy_color_and_quit env s

/-- The message loop of `wWinMain`, dispatching a list of events. -/
def run (env : Env) (s : AppState) (events : List Event) : AppState :=
  events.foldl (stepEvent env) s

/-- `wWinMain`: if `CreateWindowExW` returned NULL the program returns 1
before entering the loop; otherwise it runs the message loop to
completion, tears down, and returns 0. -/
def wWinMainExit (windowCreated : Bool) (env : Env) (s : AppState)
    (events : List Event) : Nat :=
  if windowCreated then
    let _final := run env s events
    0
  else 1

/-! ### Concrete instances used to evaluate the model -/

/-- A concrete DIB content (arbitrary nonzero bytes). -/
def frame0 : Frame := fun _ _ => ⟨17, 34, 51, 68⟩

/-- A second concrete DIB content, different from `frame0`. -/
def frame1 : Frame := fun _ _ => ⟨200, 100, 50, 25⟩

/-- A concrete screen capture (arbitrary colors). -/
def cap0 : Capture := fun x _ => ⟨(x : Nat), 128, 7⟩

/-- An environment whose clipboard cannot be opened. -/
def env0 : Env := ⟨fun _ => ⟨0, 0, 0⟩, false, true, true, true⟩

/-- An environment where every OS call succeeds and the screen is pure
red under every point. -/
def env1 : Env := ⟨fun _ => ⟨0, 0, 255⟩, true, true, true, true⟩

/-- An initial application state: cursor at (5, 5), some prior clipboard
content, no console output, loop running. -/
def sInit : AppState := ⟨(5, 5), some "old", [], none⟩

/-! ### Helper lemmas -/

theorem hexVal_hexDigit : ∀ n < 16, hexVal (hexDigit n) = n := by decide

theorem isUpperHexDigit_hexDigit : ∀ n < 16, isUpperHexDigit (hexDigit n) := by
  decide

theorem drawBorderRing_alpha (f : Frame) (x y : Fin kDiameter) :
    (drawBorderRing f x y).a = (f x y).a := by
  unfold drawBorderRing; split <;> rfl

theorem drawCenterMarker_alpha (f : Frame) (x y : Fin kDiameter) :
    (drawCenterMarker f x y).a = (f x y).a := by
  unfold drawCenterMarker; split <;> rfl

theorem ringFootprint_inside (x y : Fin kDiameter) (h : ringFootprint x y) :
    dist2 x y ≤ (kRadius : Int) * kRadius := h.2

theorem markerFootprint_inside (x y : Fin kDiameter)
    (h : markerFootprint x y) :
    dist2 x y ≤ (kRadius : Int) * kRadius := by
  obtain ⟨hx1, hx2, hy1, hy2, -⟩ := h
  unfold dist2
  simp only [kRadius] at *
  push_cast at hx1 hx2 hy1 hy2 ⊢
  nlinarith [mul_nonneg (by linarith : (0 : Int) ≤ 3 - ((x : Int) - 120))
      (by linarith : (0 : Int) ≤ 3 + ((x : Int) - 120)),
    mul_nonneg (by linarith : (0 : Int) ≤ 3 - ((y : Int) - 120))
      (by linarith : (0 : Int) ≤ 3 + ((y : Int) - 120))]

theorem stepEvent_of_quit (env : Env) (s : AppState) (e : Event)
    (h : s.quit.isSome) : stepEvent env s e = s := by
  simp [stepEvent, h]

theorem run_of_quit (env : Env) (s : AppState) (events : List Event)
    (h : s.quit.isSome) : run env s events = s := by
  induction events with
  | nil => rfl
  | cons e es ih =>
      show List.foldl (stepEvent env) s (e :: es) = s
      rw [List.foldl_cons, stepEvent_of_quit env s e h]
      exact ih

theorem run_no_click (env : Env) (s : AppState) (events : List Event)
    (h : ∀ e ∈ events, e ≠ Event.lbuttonDown) :
    (run env s events).clipboard = s.clipboard ∧
    (run env s events).console = s.console ∧
    ((run env s events).quit = s.quit ∨ (run env s events).quit = some 0) := by
  induction events generalizing s with
  | nil => exact ⟨rfl, rfl, Or.inl rfl⟩
  | cons e es ih =>
      have he : e ≠ Event.lbuttonDown := h e (List.mem_cons_self _ _)
      have hes : ∀ e' ∈ es, e' ≠ Event.lbuttonDown := fun e' h' =>
        h e' (List.mem_cons_of_mem _ h')
      have hstep : (stepEvent env s e).clipboard = s.clipboard ∧
          (stepEvent env s e).console = s.console ∧
          ((stepEvent env s e).quit = s.quit ∨
            (stepEvent env s e).quit = some 0) := by
        unfold stepEvent
        split
        · exact ⟨rfl, rfl, Or.inl rfl⟩
        · match e with
          | .tick => exact ⟨rfl, rfl, Or.inl rfl⟩
          | .keyDown sh k =>
              refine ⟨rfl, rfl, ?_⟩
              dsimp only
              split
              · exact Or.inr rfl
              · exact Or.inl rfl
          | .lbuttonDown => exact absurd rfl he
      have hrun : run env s (e :: es) = run env (stepEvent env s e) es := by
        show List.foldl (stepEvent env) s (e :: es) =
          List.foldl (stepEvent env) (stepEvent env s e) es
        rw [List.foldl_cons]
      obtain ⟨h1, h2, h3⟩ := ih (stepEvent env s e) hes
      refine ⟨?_, ?_, ?_⟩
      · rw [hrun, h1, hstep.1]
      · rw [hrun, h2, hstep.2.1]
      · rw [hrun]
        rcases h3 with h3 | h3
        · rcases hstep.2.2 with h4 | h4
          · exact Or.inl (h3.trans h4)
          · exact Or.inr (h3.trans h4)
        · exact Or.inr h3

/-! ### Claims -/

/-- C2: for every color triplet (r,g,b) with each channel in [0,255], the
formatted output string is exactly 7 characters: a `#` followed by six
uppercase hexadecimal digits, two zero-padded digits per channel in
R,G,B order (each pair being the base-16 digits of its channel value). -/
theorem formatColor_spec (r g b : Nat) (hr : r ≤ 255) (hg : g ≤ 255)
    (hb : b ≤ 255) :
    (formatColor r g b).length = 7 ∧
    (formatColor r g b).data = '#' :: (byteHex r ++ byteHex g ++ byteHex b) ∧
    (∀ c ∈ ((formatColor r g b).data).tail, isUpperHexDigit c) ∧
    hexVal (hexDigit (r / 16)) * 16 + hexVal (hexDigit (r % 16)) = r ∧
    hexVal (hexDigit (g / 16)) * 16 + hexVal (hexDigit (g % 16)) = g ∧
    hexVal (hexDigit (b / 16)) * 16 + hexVal (hexDigit (b % 16)) = b := by
  have hdiv : ∀ v : Nat, v ≤ 255 → v / 16 < 16 := fun v hv =>
    Nat.lt_of_le_of_lt (Nat.div_le_div_right hv) (by norm_num)
  have hmod : ∀ v : Nat, v % 16 < 16 := fun v => Nat.mod_lt _ (by norm_num)
  have hdec : ∀ v : Nat, v ≤ 255 →
      hexVal (hexDigit (v / 16)) * 16 + hexVal (hexDigit (v % 16)) = v := by
    intro v hv
    rw [hexVal_hexDigit _ (hdiv v hv), hexVal_hexDigit _ (hmod v)]
    omega
  refine ⟨rfl, rfl, ?_, hdec r hr, hdec g hg, hdec b hb⟩
  intro c hc
  simp only [formatColor, byteHex, String.data, List.tail_cons, List.append_assoc,
    List.cons_append, List.nil_append, List.mem_cons, List.not_mem_nil,
    or_false] at hc
  rcases hc with h | h | h | h | h | h <;> subst h
  · exact isUpperHexDigit_hexDigit _ (hdiv r hr)
  · exact isUpperHexDigit_hexDigit _ (hmod r)
  · exact isUpperHexDigit_hexDigit _ (hdiv g hg)
  · exact isUpperHexDigit_hexDigit _ (hmod g)
  · exact isUpperHexDigit_hexDigit _ (hdiv b hb)
  · exact isUpperHexDigit_hexDigit _ (hmod b)

/-- Witness for C2 at the spec's example inputs. -/
theorem formatColor_spec_witness :
    (255 : Nat) ≤ 255 ∧ (165 : Nat) ≤ 255 ∧ (0 : Nat) ≤ 255 ∧
    formatColor 0 0 0 = "#000000" ∧ formatColor 255 165 0 = "#FFA500" ∧
    (formatColor 255 165 0).length = 7 :=
  ⟨by decide, by decide, by decide, by decide, by decide,
    (formatColor_spec 255 165 0 (by decide) (by decide) (by decide)).1⟩

/-- C3: for every positive zoom and diameter, the capture-buffer side is
`diameter / zoom` when that is odd and `diameter / zoom + 1` when it is
even, hence always odd; with the compiled constants (diameter 240, zoom
8) the value 30 is adjusted to 31. -/
theorem desiredCapSize_odd (d z : Nat) (hz : 0 < z) (hd : 0 < d) :
    desiredCapSize d z = (if (d / z) % 2 = 0 then d / z + 1 else d / z) ∧
    desiredCapSize d z % 2 = 1 ∧
    kDiameter / kZoom = 30 ∧ desiredCapSize kDiameter kZoom = 31 := by
  refine ⟨rfl, ?_, by decide, by decide⟩
  unfold desiredCapSize
  rcases Nat.mod_two_eq_zero_or_one (d / z) with h | h <;> simp [h] <;> omega

/-- Witness for C3 at zoom 8, diameter 240. -/
theorem desiredCapSize_odd_witness :
    0 < 8 ∧ 0 < 240 ∧ desiredCapSize 240 8 % 2 = 1 :=
  ⟨by decide, by decide, (desiredCapSize_odd 240 8 (by decide) (by decide)).2.1⟩

/-- C5: on every arrow-key-down event the keyboard hook moves the cursor
by exactly 1 pixel (5 when Shift is held) in the key's direction, leaves
the orthogonal coordinate unchanged, and swallows the event; in
particular Right moves (100,100) to (101,100) and Shift+Right moves
(101,100) to (106,100). -/
theorem arrow_nudge (sh : Bool) (p : Int × Int) :
    keyboardHandleKeyDown sh p .right =
      ⟨(p.1 + (if sh then 5 else 1), p.2), false, true⟩ ∧
    keyboardHandleKeyDown sh p .left =
      ⟨(p.1 - (if sh then 5 else 1), p.2), false, true⟩ ∧
    keyboardHandleKeyDown sh p .up =
      ⟨(p.1, p.2 - (if sh then 5 else 1)), false, true⟩ ∧
    keyboardHandleKeyDown sh p .down =
      ⟨(p.1, p.2 + (if sh then 5 else 1)), false, true⟩ ∧
    keyboardHandleKeyDown false (100, 100) .right = ⟨(101, 100), false, true⟩ ∧
    keyboardHandleKeyDown true (101, 100) .right = ⟨(106, 100), false, true⟩ := by
  refine ⟨?_, ?_, ?_, ?_, by decide, by decide⟩ <;>
    cases sh <;> rfl

/-- C7: if the clipboard cannot be opened the commit's clipboard write is
abandoned with the clipboard left unchanged, and in every case the
commit path posts process shutdown afterwards. -/
theorem commit_best_effort (env : Env) (s : AppState) :
    (env.clipboardCanOpen = false →
      (copy_color_and_quit env s).clipboard = s.clipboard) ∧
    (copy_color_and_quit env s).quit = some 0 := by
  constructor
  · intro h
    simp [copy_color_and_quit, clipboard_set_text_utf16, h]
  · rfl

/-- Witness for C7: a run whose clipboard cannot be opened. -/
theorem commit_best_effort_witness :
    env0.clipboardCanOpen = false ∧
    (copy_color_and_quit env0 sInit).clipboard = sInit.clipboard ∧
    (copy_color_and_quit env0 sInit).quit = some 0 :=
  ⟨rfl, (commit_best_effort env0 sInit).1 rfl, (commit_best_effort env0 sInit).2⟩

/-- C8: the process exits with code 1 exactly when the overlay window
cannot be created, and with code 0 on every run in which the window was
created, whatever events (commit, Escape, window close) end the loop. -/
theorem exit_codes (w : Bool) (env : Env) (s : AppState)
    (events : List Event) :
    (wWinMainExit w env s events = 1 ↔ w = false) ∧
    (wWinMainExit w env s events = 0 ↔ w = true) := by
  cases w <;> simp [wWinMainExit]

/-- Witness for C8: both exit codes realised on concrete runs. -/
theorem exit_codes_witness :
    wWinMainExit false env1 sInit [] = 1 ∧
    wWinMainExit true env1 sInit [Event.keyDown false Key.escape] = 0 :=
  ⟨(exit_codes false env1 sInit []).1.mpr rfl,
    (exit_codes true env1 sInit [Event.keyDown false Key.escape]).2.mpr rfl⟩

/-- C9: the compositing pipeline is deterministic in the capture: two
runs over the reused frame buffer, whatever its previous contents, give
pixel-for-pixel identical composited frames from identical captures. -/
theorem composite_deterministic (prev₁ prev₂ : Frame) (cap : Capture) :
    composite prev₁ cap = composite prev₂ cap := rfl

/-- C10: the circular alpha mask is idempotent, and on pixels inside the
circle it changes only the alpha byte, leaving all color channels
unchanged. -/
theorem mask_idempotent (f : Frame) :
    apply_circle_alpha_mask (apply_circle_alpha_mask f) =
      apply_circle_alpha_mask f ∧
    ∀ x y : Fin kDiameter, dist2 x y ≤ (kRadius : Int) * kRadius →
      (apply_circle_alpha_mask f x y).b = (f x y).b ∧
      (apply_circle_alpha_mask f x y).g = (f x y).g ∧
      (apply_circle_alpha_mask f x y).r = (f x y).r := by
  constructor
  · funext x y
    by_cases h : dist2 x y ≤ (kRadius : Int) * kRadius <;>
      simp [apply_circle_alpha_mask, h]
  · intro x y h
    simp [apply_circle_alpha_mask, h]

/-- Witness for C10 at the frame center. -/
theorem mask_idempotent_witness :
    dist2 ⟨120, by decide⟩ ⟨120, by decide⟩ ≤ (kRadius : Int) * kRadius ∧
    (apply_circle_alpha_mask frame0 ⟨120, by decide⟩ ⟨120, by decide⟩).b =
      (frame0 ⟨120, by decide⟩ ⟨120, by decide⟩).b :=
  ⟨by decide, ((mask_idempotent frame0).2 ⟨120, by decide⟩ ⟨120, by decide⟩
    (by decide)).1⟩

/-- C6: if an Escape key-down is delivered before any left-click, the
loop ends with quit code 0, the clipboard and console output are exactly
as they were when the loop started, and the process exit code is 0. -/
theorem escape_cancels (env : Env) (s : AppState) (pre post : List Event)
    (sh : Bool) (hq : s.quit = none)
    (hpre : ∀ e ∈ pre, e ≠ Event.lbuttonDown) :
    (run env s (pre ++ Event.keyDown sh Key.escape :: post)).quit = some 0 ∧
    (run env s (pre ++ Event.keyDown sh Key.escape :: post)).clipboard =
      s.clipboard ∧
    (run env s (pre ++ Event.keyDown sh Key.escape :: post)).console =
      s.console ∧
    wWinMainExit true env s (pre ++ Event.keyDown sh Key.escape :: post) = 0 := by
  have hsplit : run env s (pre ++ Event.keyDown sh Key.escape :: post) =
      run env (stepEvent env (run env s pre) (Event.keyDown sh Key.escape))
        post := by
    show List.foldl (stepEvent env) s (pre ++ Event.keyDown sh Key.escape :: post) = _
    rw [List.foldl_append, List.foldl_cons]
    rfl
  obtain ⟨h1, h2, h3⟩ := run_no_click env s pre hpre
  have hq1 : (run env s pre).quit = none ∨ (run env s pre).quit = some 0 := by
    rw [hq] at h3; exact h3
  have hs2 : (stepEvent env (run env s pre)
        (Event.keyDown sh Key.escape)).quit = some 0 ∧
      (stepEvent env (run env s pre)
        (Event.keyDown sh Key.escape)).clipboard = (run env s pre).clipboard ∧
      (stepEvent env (run env s pre)
        (Event.keyDown sh Key.escape)).console = (run env s pre).console := by
    rcases hq1 with h | h
    · unfold stepEvent
      simp [h, keyboardHandleKeyDown]
    · unfold stepEvent
      simp [h]
  have hrest : run env (stepEvent env (run env s pre)
      (Event.keyDown sh Key.escape)) post =
      stepEvent env (run env s pre) (Event.keyDown sh Key.escape) :=
    run_of_quit env _ post (by rw [hs2.1]; rfl)
  rw [hsplit, hrest]
  exact ⟨hs2.1, hs2.2.1.trans h1, hs2.2.2.trans h2, by simp [wWinMainExit]⟩

/-- Witness for C6: a tick, then Escape, then a (never dispatched)
left-click, from a state with prior clipboard content. -/
theorem escape_cancels_witness :
    (run env1 sInit
      ([Event.tick] ++ Event.keyDown false Key.escape ::
        [Event.lbuttonDown])).quit = some 0 ∧
    (run env1 sInit
      ([Event.tick] ++ Event.keyDown false Key.escape ::
        [Event.lbuttonDown])).clipboard = sInit.clipboard ∧
    (run env1 sInit
      ([Event.tick] ++ Event.keyDown false Key.escape ::
        [Event.lbuttonDown])).console = sInit.console ∧
    wWinMainExit true env1 sInit
      ([Event.tick] ++ Event.keyDown false Key.escape ::
        [Event.lbuttonDown]) = 0 :=
  escape_cancels env1 sInit [Event.tick] [Event.lbuttonDown] false rfl
    (by decide)

/-- C1: in every composited frame — whatever the reused buffer held and
whatever the screen capture contains — every pixel at squared distance at
most R² from the frame center is fully opaque, and every pixel at
squared distance exceeding R² is fully transparent with all color
channels 0. -/
theorem frame_opacity (prev : Frame) (cap : Capture) (x y : Fin kDiameter) :
    (dist2 x y ≤ (kRadius : Int) * kRadius →
      (composite prev cap x y).a = 255) ∧
    ((kRadius : Int) * kRadius < dist2 x y →
      composite prev cap x y = ⟨0, 0, 0, 0⟩) := by
  constructor
  · intro h
    show (drawCenterMarker (drawBorderRing (apply_circle_alpha_mask
      (stretchOnto (clearBuffer prev) cap))) x y).a = 255
    rw [drawCenterMarker_alpha, drawBorderRing_alpha]
    simp [apply_circle_alpha_mask, h]
  · intro h
    have hin : ¬ dist2 x y ≤ (kRadius : Int) * kRadius := not_le.mpr h
    have hr : ¬ ringFootprint x y := fun hf =>
      hin (ringFootprint_inside x y hf)
    have hm : ¬ markerFootprint x y := fun hf =>
      hin (markerFootprint_inside x y hf)
    show drawCenterMarker (drawBorderRing (apply_circle_alpha_mask
      (stretchOnto (clearBuffer prev) cap))) x y = _
    simp [drawCenterMarker, drawBorderRing, apply_circle_alpha_mask, hr, hm, hin]

/-- Witness for C1 at the frame center (inside) and a corner (outside). -/
theorem frame_opacity_witness :
    (composite frame0 cap0 ⟨120, by decide⟩ ⟨120, by decide⟩).a = 255 ∧
    composite frame0 cap0 ⟨0, by decide⟩ ⟨0, by decide⟩ = ⟨0, 0, 0, 0⟩ :=
  ⟨(frame_opacity frame0 cap0 ⟨120, by decide⟩ ⟨120, by decide⟩).1 (by decide),
    (frame_opacity frame0 cap0 ⟨0, by decide⟩ ⟨0, by decide⟩).2 (by decide)⟩

/-- C4 counterexample: on a work area smaller than the window (work area
100×100, window 240×240, cursor-derived desired corner (0,0)) the
clamped rectangle's left edge falls below the work-area's left bound, so
the claim as stated — all four bounds hold for any cursor position and
work area — is false. -/
theorem clamp_small_monitor_counterexample :
    (clamp_to_monitor (0, 0) 240 240 ⟨0, 0, 100, 100⟩).left <
      (⟨0, 0, 100, 100⟩ : Rect).left := by decide

/-- C4 (amended): for every desired position, window size and work area,
the clamped rectangle's right and bottom edges never exceed the
work-area's right and bottom bounds; and provided the window fits within
the work area — width at most the work-area width, height at most the
work-area height, as the 240×240 loupe does on any real monitor — its
left and top edges are never less than the work-area's left and top
bounds. -/
theorem clamp_within_work (desired : Int × Int) (w h : Int) (work : Rect) :
    (clamp_to_monitor desired w h work).right ≤ work.right ∧
    (clamp_to_monitor desired w h work).bottom ≤ work.bottom ∧
    (w ≤ work.right - work.left →
      work.left ≤ (clamp_to_monitor desired w h work).left) ∧
    (h ≤ work.bottom - work.top →
      work.top ≤ (clamp_to_monitor desired w h work).top) := by
  unfold clamp_to_monitor
  dsimp only
  split_ifs <;>
    exact ⟨by omega, by omega, fun hw => by omega, fun hh => by omega⟩

/-- Witness for C4 (amended): cursor far right and above a 1920×1040
work area, with both fit provisos discharged. -/
theorem clamp_within_work_witness :
    (240 : Int) ≤ 1920 - 0 ∧ (240 : Int) ≤ 1040 - 0 ∧
    ((clamp_to_monitor (3000, -500) 240 240
        ⟨0, 0, 1920, 1040⟩).right ≤ 1920 ∧
      (clamp_to_monitor (3000, -500) 240 240
        ⟨0, 0, 1920, 1040⟩).bottom ≤ 1040) ∧
    ((0 : Int) ≤ (clamp_to_monitor (3000, -500) 240 240
        ⟨0, 0, 1920, 1040⟩).left ∧
      (0 : Int) ≤ (clamp_to_monitor (3000, -500) 240 240
        ⟨0, 0, 1920, 1040⟩).top) :=
  ⟨by decide, by decide,
    ⟨(clamp_within_work (3000, -500) 240 240 ⟨0, 0, 1920, 1040⟩).1,
      (clamp_within_work (3000, -500) 240 240 ⟨0, 0, 1920, 1040⟩).2.1⟩,
    (clamp_within_work (3000, -500) 240 240 ⟨0, 0, 1920, 1040⟩).2.2.1
      (by decide),
    (clamp_within_work (3000, -500) 240 240 ⟨0, 0, 1920, 1040⟩).2.2.2
      (by decide)⟩

end ColorPicker
